import Mathlib

/-!
Shallow embedding of the codesynapse parse-and-resolve pipeline
(src/codesynapse/rules.py, parser.py, complexity.py, builder.py,
parallel.py), together with theorems settling the specification claims
about it.

Machine integers do not occur; Python strings are modeled as Lean
`String`, Python dicts as association lists preserving insertion order
(assignment to an existing key keeps its position, as in CPython), and
Python exceptions as an explicit `Option PyErr` / `Except PyErr` result.
-/

namespace CodeSynapse

/-- NodeType enumeration from rules.py (MODULE, CLASS, FUNCTION,
EXTERNAL_LIB). `cls` stands for the CLASS member. -/
inductive NodeType where
  | module
  | cls
  | function
  | externalLib
deriving DecidableEq

/-- EdgeType enumeration from rules.py. It has exactly these six members;
in particular there is no DECORATES member, although parser.py refers to
`EdgeType.DECORATES` in `_add_deco_edges`. -/
inductive EdgeType where
  | imports
  | calls
  | inherits
  | contains
  | defines
  | instantiates
deriving DecidableEq

/-- The Python exception relevant to this embedding: a failed attribute
lookup (`AttributeError`), carrying the missing attribute's name. -/
inductive PyErr where
  | attributeError (attr : String)
deriving DecidableEq

/-- Python expression nodes, restricted to the constructors the parser
inspects (`ast.Name`, `ast.Attribute`, `ast.Call`). `otherExpr` stands
for any other expression node; `ast.NodeVisitor.generic_visit` recurses
into its children. -/
inductive Expr where
  | name (id : String)
  | attribute (value : Expr) (attr : String)
  | call (func : Expr) (args : List Expr)
  | otherExpr (children : List Expr)

/-- Python statement nodes, restricted to what CodeParser dispatches on
(`ast.ClassDef`, `ast.FunctionDef`, `ast.Import`, `ast.ImportFrom`).
Import clauses are (name, optional asname) pairs. `exprStmt` is an
expression statement, `other` any other statement; CodeParser has no
visitor for either, so generic_visit recurses into their children. -/
inductive Stmt where
  | classDef (name : String) (bases : List Expr) (decorators : List Expr) (body : List Stmt)
  | funcDef (name : String) (decorators : List Expr) (body : List Stmt)
  | importStmt (names : List (String × Option String))
  | importFrom (module : Option String) (level : Nat) (names : List (String × Option String))
  | exprStmt (e : Expr)
  | other (children : List Stmt)

/-- Python `sep.join(parts)` (and the dot-join of path parts): parts
joined with the separator between consecutive elements. -/
def pyJoin (sep : String) : List String → String
  | [] => ""
  | [x] => x
  | x :: xs => x ++ sep ++ pyJoin sep xs

/-- Python `s.startswith(pat)`, as a character-list prefix test. -/
def pyStartsWith (s pat : String) : Bool := pat.data.isPrefixOf s.data

/-- Python `s.endswith(pat)`, as a character-list suffix test. -/
def pyEndsWith (s pat : String) : Bool := pat.data.isSuffixOf s.data

/-- Python `c in s` for a single character. -/
def pyContainsChar (s : String) (c : Char) : Bool := s.data.contains c

/-- Helper of `pySplitChar`: split the remaining characters at every
separator occurrence, `acc` holding the current field reversed. -/
def pySplitCharAux (c : Char) : List Char → List Char → List String
  | [], acc => [String.mk acc.reverse]
  | x :: xs, acc =>
      if x = c then String.mk acc.reverse :: pySplitCharAux c xs []
      else pySplitCharAux c xs (x :: acc)

/-- Python `s.split(c)` for a single-character separator: every
occurrence splits, empty fields are kept, `"".split(c) == [""]`. -/
def pySplitChar (c : Char) (s : String) : List String :=
  pySplitCharAux c s.data []

/-- Python `len(s)` (in characters). -/
def pyLen (s : String) : Nat := s.data.length

/-- Python `s[n:]` (drop the first n characters). -/
def pyDrop (s : String) (n : Nat) : String := String.mk (s.data.drop n)

/-- Python `s[:-n]` for n at most len(s) (all but the last n
characters). -/
def pyDropRight (s : String) (n : Nat) : String :=
  String.mk (s.data.take (s.data.length - n))

/-- Helper of `pyHasSubstr`: does the pattern occur at any position of
the remaining character list? -/
def pyHasSubstrAux (pat : List Char) : List Char → Bool
  | [] => pat.isEmpty
  | x :: xs => pat.isPrefixOf (x :: xs) || pyHasSubstrAux pat xs

/-- Python substring test `pat in s`. -/
def pyHasSubstr (s pat : String) : Bool := pyHasSubstrAux pat.data s.data

/-- Python truthiness of an optional string: `None` and `""` are falsy. -/
def strFalsy : Option String → Bool
  | none => true
  | some s => s == ""

/-- Rendering of an optional string inside an f-string: Python formats
`None` as the text "None". -/
def pyStr : Option String → String
  | none => "None"
  | some s => s

/-- Python `d.get(k)` on an insertion-ordered dict modeled as an
association list. -/
def dictGet {α : Type} : List (String × α) → String → Option α
  | [], _ => none
  | (k', v) :: rest, k => if k' == k then some v else dictGet rest k

/-- Python `d[k] = v`: overwriting an existing key keeps its position,
a fresh key is appended (CPython dict insertion order). -/
def dictSet {α : Type} : List (String × α) → String → α → List (String × α)
  | [], k, v => [(k, v)]
  | (k', v') :: rest, k, v =>
      if k' == k then (k, v) :: rest else (k', v') :: dictSet rest k v

/-- `_full_attr` from parser.py: the dotted name of a Name or Attribute
chain; `None` for anything else, and for an Attribute whose base renders
falsy. -/
def fullAttr : Expr → Option String
  | .name i => some i
  | .attribute v a =>
      match fullAttr v with
      | some b => if b == "" then none else some (b ++ "." ++ a)
      | none => none
  | .call _ _ => none
  | .otherExpr _ => none

/-- `CodeParser._get_decorator_name`: Name gives its id, Attribute its
full dotted path, Call recurses into the callee, anything else None. -/
def getDecoratorName : Expr → Option String
  | .name i => some i
  | .attribute v a => fullAttr (.attribute v a)
  | .call f _ => getDecoratorName f
  | .otherExpr _ => none

/-- Python substring test `pat in s` (used with the literal patterns
"ABC" and "abstract" of the abstract-class check). -/
def hasSubstr (s pat : String) : Bool := pyHasSubstr s pat

/-- Merge two (calls, insts) accumulator pairs in visit order. -/
def mergeCA (a b : List String × List String) : List String × List String :=
  (a.1 ++ b.1, a.2 ++ b.2)

mutual
/-- `CallAnalyzer.visit` over one expression, returning the (calls,
insts) lists it appends, in visit order. At a Call whose callee has a
truthy extractable name, the name is passed through
`self.imports.get(name, name)` and classified by membership in the known
class set; `generic_visit` then descends into the children either way. -/
def caExpr (imps : List (String × String)) (known : List String) : Expr → List String × List String
  | .name _ => ([], [])
  | .attribute v _ => caExpr imps known v
  | .call f args =>
      let children := mergeCA (caExpr imps known f) (caExprList imps known args)
      match fullAttr f with
      | none => children
      | some nm =>
          if nm == "" then children
          else
            let rn := (dictGet imps nm).getD nm
            if known.contains rn then mergeCA ([], [rn]) children
            else mergeCA ([rn], []) children
  | .otherExpr cs => caExprList imps known cs

def caExprList (imps : List (String × String)) (known : List String) : List Expr → List String × List String
  | [] => ([], [])
  | e :: es => mergeCA (caExpr imps known e) (caExprList imps known es)
end

mutual
/-- `CallAnalyzer`'s generic traversal through one statement of a
function body: only Call expressions contribute; class/function
statements nested in the body are traversed (their own declarations are
invisible to CallAnalyzer, which only collects calls). -/
def caStmt (imps : List (String × String)) (known : List String) : Stmt → List String × List String
  | .classDef _ bases decorators body =>
      mergeCA (caExprList imps known bases)
        (mergeCA (caStmtList imps known body) (caExprList imps known decorators))
  | .funcDef _ decorators body =>
      mergeCA (caStmtList imps known body) (caExprList imps known decorators)
  | .importStmt _ => ([], [])
  | .importFrom _ _ _ => ([], [])
  | .exprStmt e => caExpr imps known e
  | .other cs => caStmtList imps known cs

def caStmtList (imps : List (String × String)) (known : List String) : List Stmt → List String × List String
  | [] => ([], [])
  | s :: rest => mergeCA (caStmt imps known s) (caStmtList imps known rest)
end

/-- `analyzer.visit(node)` on a FunctionDef node: generic_visit walks the
node's fields in order, of which `body` and then `decorator_list` can
contain Call expressions. -/
def analyzeFunc (imps : List (String × String)) (known : List String)
    (decorators : List Expr) (body : List Stmt) : List String × List String :=
  mergeCA (caStmtList imps known body) (caExprList imps known decorators)

/-- Attributes CodeParser attaches to an emitted node. Fields that no
claim mentions (docstring, line numbers, is_async, and the signature and
complexity fields, which are only written when collect_signatures is
enabled — GraphBuilder constructs CodeParser with its default False) are
not modeled. A flag key that parser.py leaves absent is modeled as its
falsy default. -/
structure PNodeAttrs where
  type : NodeType
  filePath : Option String := none
  isAbstract : Bool := false
  decorators : List String := []
  isProperty : Bool := false
  isClassmethod : Bool := false
  isStaticmethod : Bool := false
  isDunder : Bool := false
deriving DecidableEq

/-- The mutable state of a CodeParser instance. `current_module` is None
until `_parse_file` assigns it; it is modeled as the empty string, which
no `_module_path` result of a visited file equals. -/
structure ParserState where
  currentModule : String := ""
  currentClass : Option String := none
  nodes : List (String × PNodeAttrs) := []
  edges : List (String × String × EdgeType) := []
  imports : List (String × List (String × String)) := []
  calls : List (String × List String) := []
  insts : List (String × List String) := []
deriving DecidableEq

/-- `self.imports.setdefault(current_module, {})[asname] = full`. -/
def importsSet (imports : List (String × List (String × String))) (m k v : String) :
    List (String × List (String × String)) :=
  dictSet imports m (dictSet ((dictGet imports m).getD []) k v)

/-- `CodeParser._resolve_relative`. -/
def resolveRelative (currentModule mod : String) (level : Nat) : Option String :=
  if level == 0 then some mod
  else
    let parts := pySplitChar '.' currentModule
    if parts.length < level then none
    else
      let pfx := pyJoin "." (parts.take (parts.length - level))
      if pfx != "" && mod != "" then some (pfx ++ "." ++ mod)
      else some (if pfx != "" then pfx else mod)

/-- `CodeParser._resolve`. The call
`name.replace(first, imps[first], 1)` replaces the leftmost occurrence
of `first`; `first` is the first dotted segment of `name` and hence a
prefix of it, so the leftmost occurrence starts at index 0 and the call
is prefix substitution. -/
def resolve (st : ParserState) (name : Option String) : Option String :=
  match name with
  | none => none
  | some n =>
      if n == "" then none
      else
        let imps := (dictGet st.imports st.currentModule).getD []
        if !pyContainsChar n '.' && (dictGet imps n).isSome then dictGet imps n
        else
          let first := (pySplitChar '.' n).headD ""
          match dictGet imps first with
          | some v => some (v ++ pyDrop n (pyLen first))
          | none => some n

/-- Truthiness of an optional-string result, as used by the `if bn:` /
`if dn:` / `if resolved:` guards. -/
def truthyS (o : Option String) : Bool := !strFalsy o

/-- `CodeParser._add_deco_edges`. For the first decorator whose resolved
name is truthy the code evaluates `EdgeType.DECORATES` to build the edge
payload; rules.py defines no DECORATES member, so that attribute access
raises AttributeError before anything is appended to `self.edges`. The
function therefore never changes the state: it either returns normally
(every decorator name fell through as falsy) or raises. -/
def addDecoEdges (st : ParserState) : List Expr → Option PyErr
  | [] => none
  | d :: rest =>
      if truthyS (resolve st (getDecoratorName d)) then
        some (.attributeError "DECORATES")
      else addDecoEdges st rest

/-- The inheritance-edge loop of `visit_ClassDef`. -/
def addInheritEdges (st : ParserState) (cls : String) : List Expr → ParserState
  | [] => st
  | b :: rest =>
      let bn := resolve st (fullAttr b)
      let st' :=
        if truthyS bn then
          { st with edges := st.edges ++ [(cls, pyStr bn, EdgeType.inherits)] }
        else st
      addInheritEdges st' cls rest

/-- `CodeParser.visit_Import`: register alias `asname or name -> name`
and emit an Imports edge from the current module to the plain name,
for each clause in order. No self-loop check is performed. -/
def visitImport (st : ParserState) : List (String × Option String) → ParserState
  | [] => st
  | (nm, asn) :: rest =>
      let asname := asn.getD nm
      let st' := { st with
        imports := importsSet st.imports st.currentModule asname nm
        edges := st.edges ++ [(st.currentModule, nm, EdgeType.imports)] }
      visitImport st' rest

/-- The per-clause loop of `visit_ImportFrom` for a non-wildcard import:
`full` is `base.name` when `base` is truthy, else the bare name. -/
def importFromLoop (st : ParserState) (base : Option String) :
    List (String × Option String) → ParserState
  | [] => st
  | (nm, asn) :: rest =>
      let full := if strFalsy base then nm else pyStr base ++ "." ++ nm
      let asname := asn.getD nm
      let st' := { st with
        imports := importsSet st.imports st.currentModule asname full
        edges := st.edges ++ [(st.currentModule, full, EdgeType.imports)] }
      importFromLoop st' base rest

/-- `CodeParser.visit_ImportFrom`. The clause list of a from-import is
syntactically nonempty, so `node.names[0]` is modeled with a default
that real input never reaches. Note the guard returns only when the
resolved base is falsy AND the level is 0; a relative import whose level
exceeds the module nesting (base None, level > 0) falls through into the
per-clause loop. A wildcard first clause appends a single Imports edge
whose target interpolates the base into `f"{base}.*"`. -/
def visitImportFrom (st : ParserState) (m : Option String) (level : Nat)
    (names : List (String × Option String)) : ParserState :=
  let base := resolveRelative st.currentModule (m.getD "") level
  if strFalsy base && level == 0 then st
  else if (names.headD ("", none)).1 == "*" then
    { st with edges := st.edges ++ [(st.currentModule, pyStr base ++ ".*", EdgeType.imports)] }
  else importFromLoop st base names

mutual
/-- Dispatch of `CodeParser.visit` on one statement. Returns the updated
state together with an uncaught exception, if one was raised; the state
reflects every mutation made before the raise (Python exceptions do not
roll back instance attributes). For a class definition the enclosing
class is restored only on normal exit — parser.py has no try/finally, so
an exception inside a class body leaves `current_class` set. A function
definition emits its node and containment edge, then runs
`_add_deco_edges` (which raises on the first resolvable decorator name,
see `addDecoEdges`), and on success runs call analysis over its body;
it never visits the body looking for declarations. -/
def visitStmt (st : ParserState) : Stmt → ParserState × Option PyErr
  | .classDef nm bases decorators body =>
      let cls := st.currentModule ++ "." ++ nm
      let dnames := (decorators.filterMap getDecoratorName).filter (fun d => d != "")
      let attrs : PNodeAttrs :=
        { type := NodeType.cls
          isAbstract := dnames.any (fun d => hasSubstr d "ABC" || hasSubstr d "abstract")
          decorators := dnames }
      let st1 := { st with
        nodes := st.nodes ++ [(cls, attrs)]
        edges := st.edges ++ [(st.currentModule, cls, EdgeType.contains)] }
      let st2 := addInheritEdges st1 cls bases
      let prev := st2.currentClass
      let st3 := { st2 with currentClass := some cls }
      let (st4, err) := visitStmts st3 body
      match err with
      | some e => (st4, some e)
      | none => ({ st4 with currentClass := prev }, none)
  | .funcDef nm decorators body =>
      let fpe : String × String × EdgeType :=
        match st.currentClass with
        | some c => (c ++ "." ++ nm, c, EdgeType.defines)
        | none => (st.currentModule ++ "." ++ nm, st.currentModule, EdgeType.contains)
      let fn := fpe.1
      let dnames := (decorators.filterMap getDecoratorName).filter (fun d => d != "")
      let attrs : PNodeAttrs :=
        { type := NodeType.function
          isDunder := pyStartsWith nm "__" && pyEndsWith nm "__"
          isProperty := dnames.contains "property"
          isClassmethod := dnames.contains "classmethod"
          isStaticmethod := dnames.contains "staticmethod"
          decorators := dnames }
      let st1 := { st with
        nodes := st.nodes ++ [(fn, attrs)]
        edges := st.edges ++ [(fpe.2.1, fn, fpe.2.2)] }
      match addDecoEdges st1 decorators with
      | some e => (st1, some e)
      | none =>
          let imps := (dictGet st1.imports st1.currentModule).getD []
          let known := (st1.nodes.filter (fun p => decide (p.2.type = NodeType.cls))).map Prod.fst
          let ci := analyzeFunc imps known decorators body
          ({ st1 with
              calls := dictSet st1.calls fn ci.1
              insts := dictSet st1.insts fn ci.2 }, none)
  | .importStmt names => (visitImport st names, none)
  | .importFrom m level names => (visitImportFrom st m level names, none)
  | .exprStmt _ => (st, none)
  | .other children => visitStmts st children

/-- Sequential visit of a statement list; the first raised exception
aborts the remainder (generic_visit stops when a child visit raises). -/
def visitStmts (st : ParserState) : List Stmt → ParserState × Option PyErr
  | [] => (st, none)
  | s :: rest =>
      let r := visitStmt st s
      match r.2 with
      | some e => (r.1, some e)
      | none => visitStmts r.1 rest
end

/-- `CodeParser._module_path`: the path parts relative to the project
root (final part with its ".py" suffix already removed) joined by dots,
with a trailing ".__init__" stripped. -/
def modulePath (parts : List String) : String :=
  let s := pyJoin "." parts
  if pyEndsWith s ".__init__" then pyDropRight s 9 else s

/-- One Python source file of the project, as the pipeline sees it:
its path parts relative to the project root (the final part without its
".py" suffix) and its parsed top-level statements. -/
structure PyFile where
  parts : List String
  body : List Stmt

/-- `CodeParser._parse_file`: set the current module, append its Module
node (before any parsing of the content), then visit the tree. -/
def parseFile (st : ParserState) (f : PyFile) : ParserState × Option PyErr :=
  let m := modulePath f.parts
  let st1 := { st with
    currentModule := m
    nodes := st.nodes ++
      [(m, { type := NodeType.module
             filePath := some (pyJoin "/" f.parts ++ ".py") })] }
  visitStmts st1 f.body

/-- One destination of `_flush_calls`: each truthy raw name whose
`_resolve` result is truthy becomes an edge from the owning function. -/
def flushList (st : ParserState) (src : String) (et : EdgeType) :
    List String → List (String × String × EdgeType)
  | [] => []
  | dst :: rest =>
      (if dst != "" && truthyS (resolve st (some dst)) then
        [(src, pyStr (resolve st (some dst)), et)]
      else []) ++ flushList st src et rest

/-- Iteration over the calls (or insts) dict in insertion order. -/
def flushEntries (st : ParserState) (et : EdgeType) :
    List (String × List String) → List (String × String × EdgeType)
  | [] => []
  | (src, lst) :: rest => flushList st src et lst ++ flushEntries st et rest

/-- `CodeParser._flush_calls`. `_resolve` reads `self.current_module`
and that module's alias table; at flush time `current_module` is the
module of the last file parsed, whichever module the raw name was
collected from. -/
def flushCalls (st : ParserState) : ParserState :=
  { st with edges :=
      st.edges ++ flushEntries st EdgeType.calls st.calls
               ++ flushEntries st EdgeType.instantiates st.insts }

/-- The file loop of `CodeParser.parse_project`: files in enumeration
order; a path containing a dot-prefixed component is skipped; an
exception escaping a file's parse is caught, recorded, and the walk
continues; `_flush_calls` runs once at the end. -/
def parseProjectAux (st : ParserState) (errs : List PyErr) :
    List PyFile → ParserState × List PyErr
  | [] => (flushCalls st, errs)
  | f :: rest =>
      if f.parts.any (fun p => pyStartsWith p ".") then parseProjectAux st errs rest
      else
        let r := parseFile st f
        parseProjectAux r.1 (errs ++ r.2.toList) rest

/-- `CodeParser.parse_project` on a fresh parser: returns the final
state (its `nodes` and `edges` are the function's return value) and the
list of per-file exceptions that were caught and logged. -/
def parseProject (files : List PyFile) : ParserState × List PyErr :=
  parseProjectAux {} [] files

/-- A syntax subtree as `ComplexityCalculator.calculate_cyclomatic`
distinguishes its nodes: if/while/for statements, except handlers,
boolean operations (children are the operand list `values`), and
comprehension clauses (whose `ifs` filter list is stored separately
because its length is counted; `rest` holds the clause's other walked
children, target and iter). `otherA` is any other node. Every
constructor carries the children that `ast.walk` descends into. -/
inductive PyAst where
  | ifS (children : List PyAst)
  | whileS (children : List PyAst)
  | forS (children : List PyAst)
  | exceptH (children : List PyAst)
  | boolOp (values : List PyAst)
  | comp (ifs : List PyAst) (rest : List PyAst)
  | otherA (children : List PyAst)

mutual
/-- The total increment accumulated by the `for child in ast.walk(node)`
loop of `calculate_cyclomatic`: each node of the subtree (the root
included) contributes per its kind. `ast.walk` enumerates breadth-first;
a sum is traversal-order independent, so depth-first summation is used. -/
def cycWalk : PyAst → Nat
  | .ifS cs => 1 + cycWalkList cs
  | .whileS cs => 1 + cycWalkList cs
  | .forS cs => 1 + cycWalkList cs
  | .exceptH cs => 1 + cycWalkList cs
  | .boolOp vs => (vs.length - 1) + cycWalkList vs
  | .comp ifs rest => (ifs.length + 1) + cycWalkList ifs + cycWalkList rest
  | .otherA cs => cycWalkList cs

def cycWalkList : List PyAst → Nat
  | [] => 0
  | a :: rest => cycWalk a + cycWalkList rest
end

/-- `ComplexityCalculator.calculate_cyclomatic`: starts at 1 and adds
the per-node increments over the whole subtree. -/
def calculateCyclomatic (a : PyAst) : Nat := 1 + cycWalk a

mutual
/-- Number of if/while/for/except-handler nodes in the subtree (the
claim's first summand). -/
def decisionCount : PyAst → Nat
  | .ifS cs => 1 + decisionCountL cs
  | .whileS cs => 1 + decisionCountL cs
  | .forS cs => 1 + decisionCountL cs
  | .exceptH cs => 1 + decisionCountL cs
  | .boolOp vs => decisionCountL vs
  | .comp ifs rest => decisionCountL ifs + decisionCountL rest
  | .otherA cs => decisionCountL cs

def decisionCountL : List PyAst → Nat
  | [] => 0
  | a :: rest => decisionCount a + decisionCountL rest
end

mutual
/-- Sum over every boolean expression in the subtree of its operand
arity minus one (the claim's second summand). -/
def boolExtra : PyAst → Nat
  | .ifS cs => boolExtraL cs
  | .whileS cs => boolExtraL cs
  | .forS cs => boolExtraL cs
  | .exceptH cs => boolExtraL cs
  | .boolOp vs => (vs.length - 1) + boolExtraL vs
  | .comp ifs rest => boolExtraL ifs + boolExtraL rest
  | .otherA cs => boolExtraL cs

def boolExtraL : List PyAst → Nat
  | [] => 0
  | a :: rest => boolExtra a + boolExtraL rest
end

mutual
/-- Sum over every comprehension clause in the subtree of its
filter-clause count plus one (the claim's third summand). -/
def compExtra : PyAst → Nat
  | .ifS cs => compExtraL cs
  | .whileS cs => compExtraL cs
  | .forS cs => compExtraL cs
  | .exceptH cs => compExtraL cs
  | .boolOp vs => compExtraL vs
  | .comp ifs rest => (ifs.length + 1) + compExtraL ifs + compExtraL rest
  | .otherA cs => compExtraL cs

def compExtraL : List PyAst → Nat
  | [] => 0
  | a :: rest => compExtra a + compExtraL rest
end

/-- Node attributes at the graph-assembly stage. networkx stores the
parse attributes unchanged; of those only "type" bears on the claims
about assembly, so it alone is carried over. `build` writes "level";
nothing in the pipeline ever writes "importance" (consumers read it with
`attrs.get("importance", 0)`), and a node auto-created by `add_edge` for
a missing endpoint has no attributes at all, hence `type := none`. -/
structure GAttrs where
  type : Option NodeType := none
  level : Option Nat := none
  importance : Option Nat := none
deriving DecidableEq

/-- The directed graph `GraphBuilder` assembles (nx.DiGraph): node list
with attributes and edge list; parallel (s, t) edges collapse. -/
structure PyGraph where
  nodes : List (String × GAttrs) := []
  edges : List (String × String × EdgeType) := []
deriving DecidableEq

/-- `graph.has_node`. -/
def gHasNode (g : PyGraph) (id : String) : Bool :=
  g.nodes.any (fun p => p.1 == id)

/-- `graph.add_node(id, type=t)`: merges into an existing node's
attributes (overwrites "type", keeps the other keys) or appends a fresh
node carrying only "type". -/
def gAddNode (g : PyGraph) (id : String) (t : NodeType) : PyGraph :=
  if gHasNode g id then
    { g with nodes := g.nodes.map (fun p =>
        if p.1 == id then (p.1, { p.2 with type := some t }) else p) }
  else { g with nodes := g.nodes ++ [(id, { type := some t })] }

/-- nx auto-creates a missing edge endpoint with no attributes. -/
def gEnsureNode (g : PyGraph) (id : String) : PyGraph :=
  if gHasNode g id then g else { g with nodes := g.nodes ++ [(id, {})] }

/-- `graph.add_edge(s, t, type=et)`: ensures both endpoints exist; a
repeated (s, t) pair overwrites the stored attributes rather than
duplicating the edge. -/
def gAddEdge (g : PyGraph) (s t : String) (et : EdgeType) : PyGraph :=
  let g1 := gEnsureNode (gEnsureNode g s) t
  if g1.edges.any (fun e => e.1 == s && e.2.1 == t) then
    { g1 with edges := g1.edges.map (fun e =>
        if e.1 == s && e.2.1 == t then (s, t, et) else e) }
  else { g1 with edges := g1.edges ++ [(s, t, et)] }

/-- The node loop of `GraphBuilder.build`. -/
def buildNodes (g : PyGraph) : List (String × PNodeAttrs) → PyGraph
  | [] => g
  | (id, a) :: rest => buildNodes (gAddNode g id a.type) rest

/-- The edge loop of `GraphBuilder.build`: a target that is not yet a
node is first added as EXTERNAL_LIB, then the edge is added. -/
def buildEdges (g : PyGraph) : List (String × String × EdgeType) → PyGraph
  | [] => g
  | (s, t, et) :: rest =>
      let g1 := if gHasNode g t then g else gAddNode g t NodeType.externalLib
      buildEdges (gAddEdge g1 s t et) rest

/-- The hierarchy level `_calculate_hierarchy_levels` assigns per node
type: External = 0, Module = 1, Class = 2, Function = 3. -/
def hierLevel : NodeType → Nat
  | .externalLib => 0
  | .module => 1
  | .cls => 2
  | .function => 3

/-- `GraphBuilder._calculate_hierarchy_levels`: the levels dict gets an
entry for every typed node; `nx.set_node_attributes` leaves nodes absent
from the dict (those with no "type" attribute) untouched. -/
def calcHierarchyLevels (g : PyGraph) : PyGraph :=
  { g with nodes := g.nodes.map (fun p =>
      match p.2.type with
      | some t => (p.1, { p.2 with level := some (hierLevel t) })
      | none => p) }

/-- `GraphBuilder.build` applied to a parse result: add the parsed
nodes, add the edges (materializing external placeholders), then compute
hierarchy levels. No other derived attribute is computed. -/
def build (ns : List (String × PNodeAttrs)) (es : List (String × String × EdgeType)) : PyGraph :=
  calcHierarchyLevels (buildEdges (buildNodes {} ns) es)

/-- The attribute names bound on a CodeParser instance (the fields its
__init__ assigns) together with the methods of its class body, as
declared in parser.py. Attribute lookup on a parser instance succeeds
exactly for these names. -/
def codeParserMembers : List String :=
  ["root", "collect_signatures", "nodes", "edges", "current_module",
   "current_class", "current_source", "current_lines", "imports", "calls",
   "insts", "call_counter", "complexity_calc", "debug",
   "parse_project", "_parse_file", "_module_path", "visit_ClassDef",
   "visit_FunctionDef", "visit_AsyncFunctionDef", "visit_Import",
   "visit_ImportFrom", "_resolve_relative", "_resolve",
   "_get_decorator_name", "_add_deco_edges", "_flush_calls",
   "_extract_signature_enhanced", "_unparse_annotation", "_simple_unparse",
   "_extract_signature_from_source", "_debug_summary"]

/-- Attribute lookup on a CodeParser instance: raises AttributeError for
a name that is neither an instance field nor a method. -/
def codeParserGetattr (name : String) : Except PyErr Unit :=
  if codeParserMembers.contains name then Except.ok () else Except.error (.attributeError name)

/-- `ParallelParser._parse_single_file`. Its first statement calls
`parser._get_module_path(py_file)` — before the try block — and the
bare-module node it then builds reads `parser.project_root`; later,
inside the try, it calls `parser._process_dynamic_import_hints(content)`.
None of the three names exists on CodeParser (see `codeParserMembers`),
so every invocation raises at the first lookup and the continuation
below it is unreachable. -/
def parallelParseSingleFile (f : PyFile) :
    Except PyErr (List (String × PNodeAttrs) × List (String × String × EdgeType)) := do
  _ ← codeParserGetattr "_get_module_path"
  _ ← codeParserGetattr "project_root"
  _ ← codeParserGetattr "_process_dynamic_import_hints"
  pure ([(modulePath f.parts, { type := NodeType.module })], [])

/-- `asyncio.gather` over the per-file tasks: the first exception
propagates out of `parse_project_async`; otherwise the per-file node and
edge lists are concatenated in file order. -/
def parallelGather (files : List PyFile) :
    Except PyErr (List (String × PNodeAttrs) × List (String × String × EdgeType)) :=
  match files with
  | [] => Except.ok ([], [])
  | f :: rest =>
      match parallelParseSingleFile f with
      | .error e => .error e
      | .ok r =>
          match parallelGather rest with
          | .error e => .error e
          | .ok r' => .ok (r.1 ++ r'.1, r.2 ++ r'.2)

/-- `ParallelParser.parse_project`: enumerate files, skip hidden paths,
gather the per-file parses. -/
def parallelParseProject (files : List PyFile) :
    Except PyErr (List (String × PNodeAttrs) × List (String × String × EdgeType)) :=
  parallelGather (files.filter (fun f => !f.parts.any (fun p => pyStartsWith p ".")))

/-- Modelled from the spec: the resolution algorithm of section 4.5 as
the claim states it, for comparison with the code's `resolve` —
1. a name that is itself a declared identifier is used unchanged;
2. else `M + "." + N`, if declared, is preferred;
3. else the first dotted segment is substituted through M's alias table;
4. else the name is returned unchanged. -/
def claimResolve (declared : List String) (aliases : List (String × String))
    (M N : String) : String :=
  if declared.contains N then N
  else if declared.contains (M ++ "." ++ N) then M ++ "." ++ N
  else
    let first := (pySplitChar '.' N).headD ""
    match dictGet aliases first with
    | some v => v ++ pyDrop N (pyLen first)
    | none => N

/-- Modelled from the spec: usage importance of a node — the count of
its incoming Calls plus Instantiates edges. -/
def specUsageImportance (es : List (String × String × EdgeType)) (n : String) : Nat :=
  (es.filter (fun e =>
    e.2.1 == n && (decide (e.2.2 = EdgeType.calls) || decide (e.2.2 = EdgeType.instantiates)))).length

/-- Concrete project for claim C1: one module with one decorated
function. -/
def c1Input (m f d : String) : List PyFile :=
  [⟨[m], [.funcDef f [.name d] []]⟩]

/-- Concrete project for claim C3: a module that imports `f` from `x`,
calls it from `g`, and also declares its own `f`. -/
def c3Input (m g : String) : List PyFile :=
  [⟨[m], [.importFrom (some "x") 0 [("f", none)],
          .funcDef g [] [.exprStmt (.call (.name "f") [])],
          .funcDef "f" [] []]⟩]

/-- Concrete project for claim C4: a module with a wildcard from-import. -/
def c4Input : List PyFile :=
  [⟨["c"], [.importFrom (some "m") 0 [("*", none)]]⟩]

/-- Concrete project for claim C5: `pkg/sub/mod.py` containing
`from .... import x` (relative level 4, module nesting 3). -/
def c5Input : List PyFile :=
  [⟨["pkg", "sub", "mod"], [.importFrom none 4 [("x", none)]]⟩]

/-- Concrete project for claim C6: a module that imports its own name. -/
def c6Input (m : String) : List PyFile :=
  [⟨[m], [.importStmt [(m, none)]]⟩]

/-- Concrete project for claim C7: a class nested inside a class, next
to a method. -/
def c7Input (m C B f : String) : List PyFile :=
  [⟨[m], [.classDef C [] [] [.classDef B [] [] [], .funcDef f [] []]]⟩]

/-- Concrete project for claim C8: `a.f` calls undeclared `g`. -/
def c8Input : List PyFile :=
  [⟨["a"], [.funcDef "f" [] [.exprStmt (.call (.name "g") [])],
            .funcDef "g" [] []]⟩]

/-- The assembled graph of the C8 project. -/
def c8Graph : PyGraph :=
  build (parseProject c8Input).1.nodes (parseProject c8Input).1.edges

/-- No node of the graph carries a derived attribute yet: the invariant
maintained by node and edge insertion, before the level pass. -/
def noDerived (g : PyGraph) : Prop :=
  ∀ p ∈ g.nodes, p.2.importance = none ∧ p.2.level = none

/-!
Helper lemmas.
-/

theorem strAppendCancelLeft {a b c : String} : a ++ b = a ++ c ↔ b = c := by
  constructor
  · intro h
    have h' := congrArg String.data h
    rw [String.data_append, String.data_append] at h'
    exact String.ext (List.append_cancel_left h')
  · intro h; rw [h]

theorem strAppendCancelRight {a b c : String} : a ++ c = b ++ c ↔ a = b := by
  constructor
  · intro h
    have h' := congrArg String.data h
    rw [String.data_append, String.data_append] at h'
    exact String.ext (List.append_cancel_right h')
  · intro h; rw [h]

theorem strDecideComm (a b : String) : decide (a = b) = (b == a) := by
  by_cases h : a = b
  · subst h; simp
  · simp [h, Ne.symm h]

mutual
theorem cycWalk_eq_counts : ∀ a : PyAst,
    cycWalk a = decisionCount a + boolExtra a + compExtra a
  | .ifS cs => by
      have h := cycWalkList_eq_counts cs
      simp only [cycWalk, decisionCount, boolExtra, compExtra]; omega
  | .whileS cs => by
      have h := cycWalkList_eq_counts cs
      simp only [cycWalk, decisionCount, boolExtra, compExtra]; omega
  | .forS cs => by
      have h := cycWalkList_eq_counts cs
      simp only [cycWalk, decisionCount, boolExtra, compExtra]; omega
  | .exceptH cs => by
      have h := cycWalkList_eq_counts cs
      simp only [cycWalk, decisionCount, boolExtra, compExtra]; omega
  | .boolOp vs => by
      have h := cycWalkList_eq_counts vs
      simp only [cycWalk, decisionCount, boolExtra, compExtra]; omega
  | .comp ifs rest => by
      have h1 := cycWalkList_eq_counts ifs
      have h2 := cycWalkList_eq_counts rest
      simp only [cycWalk, decisionCount, boolExtra, compExtra]; omega
  | .otherA cs => by
      have h := cycWalkList_eq_counts cs
      simp only [cycWalk, decisionCount, boolExtra, compExtra]; omega

theorem cycWalkList_eq_counts : ∀ l : List PyAst,
    cycWalkList l = decisionCountL l + boolExtraL l + compExtraL l
  | [] => by simp [cycWalkList, decisionCountL, boolExtraL, compExtraL]
  | a :: rest => by
      have h1 := cycWalk_eq_counts a
      have h2 := cycWalkList_eq_counts rest
      simp only [cycWalkList, decisionCountL, boolExtraL, compExtraL]; omega
end

theorem gAddNode_noDerived {g : PyGraph} {id : String} {t : NodeType}
    (h : noDerived g) : noDerived (gAddNode g id t) := by
  intro p hp
  unfold gAddNode at hp
  split at hp
  · simp only [List.mem_map] at hp
    obtain ⟨q, hq, rfl⟩ := hp
    obtain ⟨h1, h2⟩ := h q hq
    split <;> simp_all
  · simp only [List.mem_append, List.mem_singleton] at hp
    rcases hp with hp | rfl
    · exact h p hp
    · exact ⟨rfl, rfl⟩

theorem gEnsureNode_noDerived {g : PyGraph} {id : String}
    (h : noDerived g) : noDerived (gEnsureNode g id) := by
  intro p hp
  unfold gEnsureNode at hp
  split at hp
  · exact h p hp
  · simp only [List.mem_append, List.mem_singleton] at hp
    rcases hp with hp | rfl
    · exact h p hp
    · exact ⟨rfl, rfl⟩

theorem gAddEdge_nodes (g : PyGraph) (s t : String) (et : EdgeType) :
    (gAddEdge g s t et).nodes = (gEnsureNode (gEnsureNode g s) t).nodes := by
  simp only [gAddEdge]
  split <;> rfl

theorem gAddEdge_noDerived {g : PyGraph} {s t : String} {et : EdgeType}
    (h : noDerived g) : noDerived (gAddEdge g s t et) := by
  intro p hp
  rw [gAddEdge_nodes] at hp
  exact @gEnsureNode_noDerived (gEnsureNode g s) t (@gEnsureNode_noDerived g s h) p hp

theorem buildNodes_noDerived :
    ∀ (ns : List (String × PNodeAttrs)) (g : PyGraph),
      noDerived g → noDerived (buildNodes g ns)
  | [], _, h => h
  | (id, a) :: rest, g, h =>
      buildNodes_noDerived rest (gAddNode g id a.type) (gAddNode_noDerived h)

theorem buildEdges_noDerived :
    ∀ (es : List (String × String × EdgeType)) (g : PyGraph),
      noDerived g → noDerived (buildEdges g es)
  | [], _, h => h
  | (s, t, et) :: rest, g, h => by
      unfold buildEdges
      apply buildEdges_noDerived rest
      apply gAddEdge_noDerived
      split
      · exact h
      · exact gAddNode_noDerived h

/-!
Claim theorems.
-/

/-- C9: confirmed — for every declaration subtree the cyclomatic
complexity returned equals 1 plus the number of if/while/for/
except-handler nodes, plus the sum over every boolean expression of its
operand arity minus 1, plus, for each comprehension clause, its
filter-clause count plus 1. -/
theorem c9_cyclomatic (a : PyAst) :
    calculateCyclomatic a = 1 + decisionCount a + boolExtra a + compExtra a := by
  have h := cycWalk_eq_counts a
  simp only [calculateCyclomatic, h]
  omega

/-- C10: confirmed — visiting a function definition emits exactly the
function's own node and its containment/definition edge, with the same
attribute record whatever the body is: the visit never descends into the
body looking for declarations (it only runs call analysis over it), so
nested function or class definitions contribute no node and no
Contains/Defines edge. -/
theorem c10_body_ignored (st : ParserState) (nm : String) (decorators : List Expr) :
    ∃ a : PNodeAttrs, ∀ body : List Stmt,
      (visitStmt st (.funcDef nm decorators body)).1.nodes
        = st.nodes ++ [((match st.currentClass with
            | some c => c ++ "." ++ nm
            | none => st.currentModule ++ "." ++ nm), a)]
      ∧ (visitStmt st (.funcDef nm decorators body)).1.edges
        = st.edges ++ [(match st.currentClass with
            | some c => (c, c ++ "." ++ nm, EdgeType.defines)
            | none => (st.currentModule, st.currentModule ++ "." ++ nm, EdgeType.contains))] := by
  refine ⟨{ type := NodeType.function,
            isDunder := pyStartsWith nm "__" && pyEndsWith nm "__",
            isProperty := ((decorators.filterMap getDecoratorName).filter (fun d => d != "")).contains "property",
            isClassmethod := ((decorators.filterMap getDecoratorName).filter (fun d => d != "")).contains "classmethod",
            isStaticmethod := ((decorators.filterMap getDecoratorName).filter (fun d => d != "")).contains "staticmethod",
            decorators := (decorators.filterMap getDecoratorName).filter (fun d => d != "") }, ?_⟩
  intro body
  cases hcc : st.currentClass with
  | none =>
      simp only [visitStmt, hcc]
      split <;> exact ⟨rfl, rfl⟩
  | some c =>
      simp only [visitStmt, hcc]
      split <;> exact ⟨rfl, rfl⟩

/-- C2: code_bug — parallel parsing is not equivalent to sequential
parsing: on a project with one file the parallel path raises
AttributeError at its very first step (`parser._get_module_path` does
not exist on CodeParser), while the sequential path succeeds and
produces the module node. -/
theorem c2_parallel_crash :
    parallelParseProject [⟨["a"], []⟩]
      = Except.error (.attributeError "_get_module_path")
    ∧ (parseProject [⟨["a"], []⟩]).2 = []
    ∧ (parseProject [⟨["a"], []⟩]).1.nodes.map Prod.fst = ["a"] :=
  ⟨rfl, by decide, by decide⟩

/-- C5: code_bug — a from-import whose relative level exceeds the
module nesting is not dropped: `from .... import x` in `pkg/sub/mod.py`
registers the alias `x -> x` and emits an Imports edge to the bare name
`x`, with no error raised, contradicting the claimed (and spec-stated)
recovery of dropping the import with no edge. -/
theorem c5_overdeep_import :
    (parseProject c5Input).1.edges = [("pkg.sub.mod", "x", EdgeType.imports)]
    ∧ dictGet (parseProject c5Input).1.imports "pkg.sub.mod" = some [("x", "x")]
    ∧ (parseProject c5Input).2 = [] := by
  refine ⟨by decide, by decide, by decide⟩

/-- C8 (amended): after graph assembly no node carries a
usage-importance attribute at all — nothing in the pipeline ever writes
one (consumers read it with a default of 0); the only derived attribute
`build` computes is the hierarchy level, present exactly for the typed
nodes with External = 0, Module = 1, Class = 2, Function = 3. -/
theorem c8_no_importance (ns : List (String × PNodeAttrs))
    (es : List (String × String × EdgeType)) :
    ∀ p ∈ (build ns es).nodes,
      p.2.importance = none ∧ p.2.level = p.2.type.map hierLevel := by
  have h0 : noDerived (buildEdges (buildNodes {} ns) es) := by
    apply buildEdges_noDerived
    apply buildNodes_noDerived
    intro p hp
    exact absurd hp (List.not_mem_nil p)
  intro p hp
  unfold build calcHierarchyLevels at hp
  simp only [List.mem_map] at hp
  obtain ⟨q, hq, rfl⟩ := hp
  obtain ⟨h1, h2⟩ := h0 q hq
  rcases ht : q.2.type with _ | t
  · simp only [ht]
    exact ⟨h1, by simp [h2, ht]⟩
  · simp only [ht]
    exact ⟨h1, by simp [ht]⟩

/-- C8 counterexample: in the assembled graph of `c8Input` the external
node `g` has one incoming Calls edge, yet carries no importance
attribute — the claim that every node carries a usage-importance
attribute equal to that count is false. -/
theorem c8_counterexample :
    ¬ (∀ p ∈ c8Graph.nodes,
        p.2.importance = some (specUsageImportance c8Graph.edges p.1))
    ∧ specUsageImportance c8Graph.edges "g" = 1
    ∧ (dictGet c8Graph.nodes "g").map GAttrs.importance = some none := by
  refine ⟨by decide, by decide, by decide⟩

/-- C8 witness: the amended theorem evaluated on a one-module project. -/
theorem c8_witness :
    (⟨some NodeType.module, some 1, none⟩ : GAttrs).importance = none
    ∧ (⟨some NodeType.module, some 1, none⟩ : GAttrs).level
        = (some NodeType.module).map hierLevel :=
  c8_no_importance [("a", { type := NodeType.module })] []
    ("a", ⟨some NodeType.module, some 1, none⟩) (by decide)

/-- C1 counterexample: for a function with decorator `deco` the claim
demands a decoration edge from `m.f` to `deco` and an Imports edge from
`m` to `deco`; the code instead raises AttributeError (EdgeType has no
DECORATES member) and the final edge list holds only the containment
edge. -/
theorem c1_counterexample :
    (parseProject (c1Input "m" "f" "deco")).1.edges = [("m", "m.f", EdgeType.contains)]
    ∧ ("m", "deco", EdgeType.imports) ∉ (parseProject (c1Input "m" "f" "deco")).1.edges
    ∧ (parseProject (c1Input "m" "f" "deco")).2 = [.attributeError "DECORATES"] := by
  refine ⟨by decide, by decide, by decide⟩

/-- C3 counterexample: with `from x import f` and a same-module
declaration `m.f`, the claim's resolution procedure yields `m.f`
(local-scope match, step 2), but the code emits the Calls edge to `x.f`
resolved purely through the alias table, and no edge to `m.f` exists. -/
theorem c3_counterexample :
    claimResolve ((parseProject (c3Input "m" "g")).1.nodes.map Prod.fst)
        ((dictGet (parseProject (c3Input "m" "g")).1.imports "m").getD []) "m" "f" = "m.f"
    ∧ ("m.g", "m.f", EdgeType.calls) ∉ (parseProject (c3Input "m" "g")).1.edges
    ∧ ("m.g", "x.f", EdgeType.calls) ∈ (parseProject (c3Input "m" "g")).1.edges := by
  refine ⟨by decide, by decide, by decide⟩

/-- C4 counterexample: `from m import *` in module `c` emits an Imports
edge whose target is the literal `m.*` — not the base module `m` the
claim requires — and registers no alias at all. -/
theorem c4_counterexample :
    ("c", "m", EdgeType.imports) ∉ (parseProject c4Input).1.edges
    ∧ (parseProject c4Input).1.edges = [("c", "m.*", EdgeType.imports)]
    ∧ dictGet (parseProject c4Input).1.imports "c" = none := by
  refine ⟨by decide, by decide, by decide⟩

/-- C6 counterexample: a module `m` containing `import m` produces the
self-loop edge (m, m), so the claimed invariant that every edge has
distinct endpoints fails. -/
theorem c6_counterexample :
    ¬ (∀ e ∈ (parseProject (c6Input "m")).1.edges, e.1 ≠ e.2.1) := by decide

/-- C7 counterexample: a class `B` declared in the body of class `C` of
module `m` is emitted with identifier `m.B`, not the claimed `m.C.B`. -/
theorem c7_counterexample :
    "m.C.B" ∉ (parseProject (c7Input "m" "C" "B" "f")).1.nodes.map Prod.fst
    ∧ "m.B" ∈ (parseProject (c7Input "m" "C" "B" "f")).1.nodes.map Prod.fst := by
  refine ⟨by decide, by decide⟩

/-- C4 (amended): for every wildcard import `from B import *` with a
truthy absolute base, the visitor emits exactly one plain Imports edge
from the current module to the literal string `B.*` (edge attributes
carry only the type — no star flag exists), registers no alias at all
(no `__all__` is ever read), and ignores any further clauses of the
statement. -/
theorem c4_wildcard_star_edge (st : ParserState) (b : String) (h : b ≠ "")
    (asn : Option String) (rest : List (String × Option String)) :
    visitStmt st (.importFrom (some b) 0 (("*", asn) :: rest))
      = ({ st with edges := st.edges ++ [(st.currentModule, b ++ ".*", EdgeType.imports)] }, none) := by
  simp [visitStmt, visitImportFrom, resolveRelative, strFalsy, pyStr, h]

/-- C4 witness: the amended theorem evaluated on a concrete state. -/
theorem c4_witness :
    visitStmt (⟨"c", none, [], [], [], [], []⟩ : ParserState)
        (.importFrom (some "m") 0 [("*", none)])
      = (⟨"c", none, [], [("c", "m.*", EdgeType.imports)], [], [], []⟩, none) := by
  simpa using c4_wildcard_star_edge ⟨"c", none, [], [], [], [], []⟩ "m" (by decide) none []

/-- C6 (amended): no operation filters self-loops — a module that
imports its own name produces an Imports edge from itself to itself,
and graph assembly preserves it. -/
theorem c6_self_loop (m : String) (h1 : pyStartsWith m "." = false)
    (h2 : pyEndsWith m ".__init__" = false) :
    (parseProject (c6Input m)).1.edges = [(m, m, EdgeType.imports)]
    ∧ (build (parseProject (c6Input m)).1.nodes (parseProject (c6Input m)).1.edges).edges
        = [(m, m, EdgeType.imports)] := by
  have hp : parseProject (c6Input m)
      = ({ currentModule := m,
           nodes := [(m, { type := NodeType.module, filePath := some (m ++ ".py") })],
           edges := [(m, m, EdgeType.imports)],
           imports := [(m, [(m, m)])] }, []) := by
    simp [parseProject, parseProjectAux, parseFile, c6Input, modulePath, pyJoin, h1, h2,
      visitStmts, visitStmt, visitImport, importsSet, dictGet, dictSet, flushCalls,
      flushEntries]
  rw [hp]
  refine ⟨rfl, ?_⟩
  simp [build, buildNodes, buildEdges, gAddNode, gHasNode, gAddEdge, gEnsureNode,
    calcHierarchyLevels]

/-- C6 witness: the amended theorem evaluated at module name "m". -/
theorem c6_witness :
    (parseProject (c6Input "m")).1.edges = [("m", "m", EdgeType.imports)]
    ∧ (build (parseProject (c6Input "m")).1.nodes (parseProject (c6Input "m")).1.edges).edges
        = [("m", "m", EdgeType.imports)] :=
  c6_self_loop "m" (by decide) (by decide)

/-- C7 (amended): a Class node's identifier is always
`currentModule + "." + name`, even for a class declared inside another
class's body — the enclosing class is skipped, so the nested class `B`
of `m.C` gets `m.B`, and its containment edge comes from the module;
Function nodes do extend their lexical parent's emitted identifier
(the enclosing class node if any, else the module) by one segment. -/
theorem c7_identifiers (m C B f : String) (h1 : pyStartsWith m "." = false)
    (h2 : pyEndsWith m ".__init__" = false) :
    (parseProject (c7Input m C B f)).1.nodes.map Prod.fst
      = [m, m ++ "." ++ C, m ++ "." ++ B, m ++ "." ++ C ++ "." ++ f]
    ∧ (parseProject (c7Input m C B f)).1.edges
      = [(m, m ++ "." ++ C, EdgeType.contains),
         (m, m ++ "." ++ B, EdgeType.contains),
         (m ++ "." ++ C, m ++ "." ++ C ++ "." ++ f, EdgeType.defines)] := by
  refine ⟨?_, ?_⟩ <;>
    simp [parseProject, parseProjectAux, parseFile, c7Input, modulePath, pyJoin, h1, h2,
      visitStmts, visitStmt, addInheritEdges, addDecoEdges, analyzeFunc, caStmtList,
      caExprList, mergeCA, importsSet, dictGet, dictSet, flushCalls, flushEntries,
      flushList]

/-- C7 witness: the amended theorem evaluated at concrete names. -/
theorem c7_witness :
    (parseProject (c7Input "m" "C" "B" "f")).1.nodes.map Prod.fst
      = ["m", "m.C", "m.B", "m.C.f"]
    ∧ (parseProject (c7Input "m" "C" "B" "f")).1.edges
      = [("m", "m.C", EdgeType.contains),
         ("m", "m.B", EdgeType.contains),
         ("m.C", "m.C.f", EdgeType.defines)] := by
  simpa using c7_identifiers "m" "C" "B" "f" (by decide) (by decide)

/-- C1 (amended): the decorator names property/classmethod/staticmethod
each set the corresponding boolean flag on the Function node, but no
decorator is exempted from the edge step: `_add_deco_edges` runs for
every decorator, and because EdgeType has no DECORATES member the first
decorator with a truthy resolved name raises AttributeError — so no
decoration edge and no decorator-import edge is ever emitted, call
analysis for the function never runs, the rest of the file is skipped,
and the exception is caught and logged at the project loop. -/
theorem c1_decorator_attr_error (m f d : String)
    (h1 : pyStartsWith m "." = false) (h2 : pyEndsWith m ".__init__" = false)
    (h3 : d ≠ "") :
    (parseProject (c1Input m f d)).2 = [.attributeError "DECORATES"]
    ∧ (parseProject (c1Input m f d)).1.edges = [(m, m ++ "." ++ f, EdgeType.contains)]
    ∧ (parseProject (c1Input m f d)).1.nodes.map Prod.fst = [m, m ++ "." ++ f]
    ∧ (parseProject (c1Input m f d)).1.nodes.map (fun p => p.2.isClassmethod)
        = [false, d == "classmethod"]
    ∧ (parseProject (c1Input m f d)).1.nodes.map (fun p => p.2.isStaticmethod)
        = [false, d == "staticmethod"]
    ∧ (parseProject (c1Input m f d)).1.nodes.map (fun p => p.2.isProperty)
        = [false, d == "property"]
    ∧ (parseProject (c1Input m f d)).1.calls = [] := by
  refine ⟨?_, ?_, ?_, ?_, ?_, ?_, ?_⟩ <;>
    simp [parseProject, parseProjectAux, parseFile, c1Input, modulePath, pyJoin, h1, h2, h3,
      visitStmts, visitStmt, addDecoEdges, resolve, truthyS, strFalsy, getDecoratorName,
      dictGet, flushCalls, flushEntries, strDecideComm]

/-- C1 witness: the amended theorem evaluated at decorator
"classmethod" — the flag is set, yet the visit still raises and emits
no decoration edge. -/
theorem c1_witness :
    (parseProject (c1Input "m" "f" "classmethod")).2 = [.attributeError "DECORATES"]
    ∧ (parseProject (c1Input "m" "f" "classmethod")).1.edges
        = [("m", "m.f", EdgeType.contains)]
    ∧ (parseProject (c1Input "m" "f" "classmethod")).1.nodes.map Prod.fst = ["m", "m.f"]
    ∧ (parseProject (c1Input "m" "f" "classmethod")).1.nodes.map (fun p => p.2.isClassmethod)
        = [false, true]
    ∧ (parseProject (c1Input "m" "f" "classmethod")).1.nodes.map (fun p => p.2.isStaticmethod)
        = [false, false]
    ∧ (parseProject (c1Input "m" "f" "classmethod")).1.nodes.map (fun p => p.2.isProperty)
        = [false, false]
    ∧ (parseProject (c1Input "m" "f" "classmethod")).1.calls = [] := by
  simpa using c1_decorator_attr_error "m" "f" "classmethod" (by decide) (by decide) (by decide)

/-- C3 (amended): resolution consults only the current module's alias
table — a dotless name that is an alias maps to its target, otherwise
the first dotted segment is substituted if aliased, otherwise the name
is unchanged; declared identifiers are never consulted, so an alias
shadows a same-module declaration: with `from x import f`, a declared
`m.f`, and a call `f()` in `m.g`, the flushed Calls edge targets `x.f`,
not `m.f`. (Call targets are pre-substituted through the visiting
module's table at collection time; the flush pass then applies
`_resolve` with whatever module was parsed last.) -/
theorem c3_alias_over_local (m g : String)
    (h1 : pyStartsWith m "." = false) (h2 : pyEndsWith m ".__init__" = false)
    (h3 : g ≠ "f") :
    (parseProject (c3Input m g)).1.edges
      = [(m, "x.f", EdgeType.imports),
         (m, m ++ "." ++ g, EdgeType.contains),
         (m, m ++ "." ++ "f", EdgeType.contains),
         (m ++ "." ++ g, "x.f", EdgeType.calls)] := by
  have hkey : ((m ++ "." ++ g) == (m ++ "." ++ "f")) = false := by
    rw [beq_eq_false_iff_ne]
    intro h
    exact h3 (strAppendCancelLeft.mp h)
  simp [parseProject, parseProjectAux, parseFile, c3Input, modulePath, pyJoin, h1, h2, hkey,
    visitStmts, visitStmt, visitImportFrom, importFromLoop, resolveRelative, importsSet,
    addDecoEdges, analyzeFunc, caStmtList, caStmt, caExpr, caExprList, mergeCA, fullAttr,
    resolve, truthyS, strFalsy, pyStr, dictGet, dictSet, flushCalls, flushEntries, flushList,
    pyContainsChar, pySplitChar, pySplitCharAux, pyDrop, pyLen]

/-- C3 witness: the amended theorem evaluated at concrete names. -/
theorem c3_witness :
    (parseProject (c3Input "m" "g")).1.edges
      = [("m", "x.f", EdgeType.imports),
         ("m", "m.g", EdgeType.contains),
         ("m", "m.f", EdgeType.contains),
         ("m.g", "x.f", EdgeType.calls)] := by
  simpa using c3_alias_over_local "m" "g" (by decide) (by decide) (by decide)

end CodeSynapse
